import Mathlib

/-!
# Verification of the overlay rendering engine (`src/content/overlay.ts`)

Shallow embedding of the overlay controller of the refine extension.  Text is
modelled as `List Char`; the DOM nodes owned by the controller are modelled as
explicit records; the mutable `OverlayController` instance together with the
document it manipulates is modelled as a `World` record, and every method of
the controller becomes a function `World → World`.

Modelling conventions, fixed once and for all:
* JavaScript strings are `List Char`; `String.prototype.toLowerCase` is the
  per-character `Char.toLower` (ASCII case folding — adequate for the claims,
  which never involve locale-dependent characters), `trim`/`trimEnd` strip
  `Char.isWhitespace` characters, `slice` is `take`/`drop` (the source only
  ever slices with non-negative indices), and `indexOf` is the first index at
  which the needle is a prefix of the remaining haystack.
* The chained `.replace(...)` calls of `escapeHtml` replace one character by
  an entity whose later characters are never rewritten by a later pass (the
  `&`-pass runs first), so the chain is the per-character map `escChar`.
* `Array.prototype.sort` with comparator `(a, b) => a.start - b.start` is a
  stable ascending sort; it is embedded as a stable insertion sort.
* Geometry (`updateLayout`, `getBoundingClientRect`, computed styles) is
  outside the model: `updateLayout` is the identity on the modelled state.
-/

namespace Refine

/-- Embeds `OverlayFeatureFlags` of the source. -/
structure OverlayFeatureFlags where
  overlayEnabled : Bool
  ghostTextEnabled : Bool
  suggestionsEnabled : Bool
  criticalErrorsEnabled : Bool
deriving DecidableEq

/-- Embeds `CriticalError` of `types/messages.ts`: a literal substring to locate plus
the message shown for it. -/
structure CriticalError where
  span : List Char
  message : List Char
deriving DecidableEq

/-- Embeds `RefineSuggestion` of `types/messages.ts`. -/
structure RefineSuggestion where
  type : List Char
  label : List Char
  reason : List Char
deriving DecidableEq

/-- One entry of the `highlights` array of `buildErrorMarkup`:
`{ start, end, error }` (`end` is a Lean keyword, embedded as `stop`). -/
structure Highlight where
  start : Nat
  stop : Nat
  error : CriticalError
deriving DecidableEq

/-- Per-character HTML escaping: the five markup-significant characters become
entities, every other character is kept. -/
def escChar (c : Char) : List Char :=
  if c = '&' then "&amp;".data
  else if c = '<' then "&lt;".data
  else if c = '>' then "&gt;".data
  else if c = '"' then "&quot;".data
  else if c = '\'' then "&#39;".data
  else [c]

/-- Embeds `escapeHtml` of the source: the five chained global `replace` passes,
which amount to mapping `escChar` over the string (the `&` pass runs first,
and no later pass rewrites a character produced by an earlier one). -/
def escapeHtml (value : List Char) : List Char :=
  value.flatMap escChar

/-- Embeds `String.prototype.trim`. -/
def jsTrim (l : List Char) : List Char :=
  ((l.dropWhile Char.isWhitespace).reverse.dropWhile Char.isWhitespace).reverse

/-- Embeds `String.prototype.trimEnd`. -/
def jsTrimEnd (l : List Char) : List Char :=
  (l.reverse.dropWhile Char.isWhitespace).reverse

/-- Embeds `String.prototype.toLowerCase`, per character. -/
def toLowerL (l : List Char) : List Char :=
  l.map Char.toLower

/-- Does `needle` occur at the very beginning of `hay`? -/
def matchesAt : List Char → List Char → Bool
  | [], _ => true
  | _ :: _, [] => false
  | a :: as, b :: bs => a == b && matchesAt as bs

/-- Embeds `String.prototype.indexOf`: index of the first occurrence of `needle` in
`hay`, `none` when absent (the source compares the result against `-1`). -/
def jsIndexOf : List Char → List Char → Option Nat
  | [], needle => if matchesAt needle [] then some 0 else none
  | h :: t, needle =>
    if matchesAt needle (h :: t) then some 0
    else (jsIndexOf t needle).map (· + 1)

/-- Embeds `text.slice(a, b)` for non-negative indices. -/
def sliceL (l : List Char) (a b : Nat) : List Char :=
  (l.take b).drop a

/-- The body of the `errors.forEach` collection loop of `buildErrorMarkup`:
trim the span, skip it when empty, locate the first case-insensitive
occurrence, skip when absent, otherwise record `[start, start + len)` with
the originating error. -/
def locateError (text : List Char) (e : CriticalError) : Option Highlight :=
  let span := jsTrim e.span
  if span = [] then none
  else
    match jsIndexOf (toLowerL text) (toLowerL span) with
    | none => none
    | some s => some { start := s, stop := s + span.length, error := e }

/-- The `highlights` array after the collection loop, in `push` order. -/
def collectHighlights (text : List Char) (errors : List CriticalError) : List Highlight :=
  errors.filterMap (locateError text)

/-- Stable insertion of a highlight into a list sorted by `start`: the new
element goes before the first strictly larger start, after equal ones. -/
def insertHL (h : Highlight) : List Highlight → List Highlight
  | [] => [h]
  | k :: ks => if h.start ≤ k.start then h :: k :: ks else k :: insertHL h ks

/-- Embeds `highlights.sort((a, b) => a.start - b.start)`: stable ascending sort by
`start`, embedded as insertion sort (stable sorts by a total preorder agree). -/
def sortHLs : List Highlight → List Highlight
  | [] => []
  | h :: hs => insertHL h (sortHLs hs)

/-- The sorted highlight list `buildErrorMarkup` feeds into its markup loop. -/
def sortedHighlights (text : List Char) (errors : List CriticalError) : List Highlight :=
  sortHLs (collectHighlights text errors)

/-- Opening tag emitted for one highlight: class, escaped message attribute,
positional index attribute. -/
def wrapOpen (msg : List Char) (idx : Nat) : List Char :=
  "<span class=\"refine-error-underline\" data-error-message=\"".data
    ++ escapeHtml msg
    ++ "\" data-error-index=\"".data
    ++ (toString idx).data
    ++ "\">".data

/-- Closing tag emitted for one highlight. -/
def wrapClose : List Char :=
  "</span>".data

/-- The `highlights.forEach` markup loop of `buildErrorMarkup`, with the
`cursor` and the `forEach` index made explicit, followed by the trailing
`escapeHtml(text.slice(cursor))`. -/
def markupLoop (text : List Char) : Nat → Nat → List Highlight → List Char
  | cursor, _, [] => escapeHtml (text.drop cursor)
  | cursor, idx, h :: t =>
    escapeHtml (sliceL text cursor h.start)
      ++ wrapOpen h.error.message idx
      ++ escapeHtml (sliceL text h.start h.stop)
      ++ wrapClose
      ++ markupLoop text h.stop (idx + 1) t

/-- Embeds `buildErrorMarkup` of the source. -/
def buildErrorMarkup (text : List Char) (errors : List CriticalError) : List Char :=
  if text = [] then []
  else markupLoop text 0 0 (sortedHighlights text errors)

/-! ## Specification-side views used to state the builder contract -/

/-- Decomposition of the builder output into segments: each segment is the raw
(unescaped) text it carries, tagged with `none` for plain text between spans
and with `some (message, index)` for an annotated span.  This is the
spec-side view of §4.2 used to compare against `markupLoop`. -/
def markupSegs (text : List Char) : Nat → Nat → List Highlight → List (List Char × Option (List Char × Nat))
  | cursor, _, [] => [(text.drop cursor, none)]
  | cursor, idx, h :: t =>
    (sliceL text cursor h.start, none)
      :: (sliceL text h.start h.stop, some (h.error.message, idx))
      :: markupSegs text h.stop (idx + 1) t

/-- Rendering of one spec-side segment: plain segments are escaped, annotated
segments are escaped and wrapped between `wrapOpen`/`wrapClose` whose
boundaries therefore coincide with the span boundaries. -/
def renderSeg : List Char × Option (List Char × Nat) → List Char
  | (raw, none) => escapeHtml raw
  | (raw, some (msg, idx)) => wrapOpen msg idx ++ escapeHtml raw ++ wrapClose

/-- Spec-side HTML entity decoder, inverse of `escapeHtml` (fuelled to keep
the recursion structural). -/
def unescapeAux : Nat → List Char → List Char
  | 0, l => l
  | _ + 1, [] => []
  | n + 1, c :: rest =>
    if c == '&' && rest.take 4 == "amp;".data then '&' :: unescapeAux n (rest.drop 4)
    else if c == '&' && rest.take 3 == "lt;".data then '<' :: unescapeAux n (rest.drop 3)
    else if c == '&' && rest.take 3 == "gt;".data then '>' :: unescapeAux n (rest.drop 3)
    else if c == '&' && rest.take 5 == "quot;".data then '"' :: unescapeAux n (rest.drop 5)
    else if c == '&' && rest.take 4 == "#39;".data then '\'' :: unescapeAux n (rest.drop 4)
    else c :: unescapeAux n rest

/-- Spec-side HTML entity decoder. -/
def unescapeHtml (l : List Char) : List Char :=
  unescapeAux l.length l

/-! ## The controller state machine

The mutable fields of the `OverlayController` instance, the DOM nodes it
owns, and the document elements it attaches to.  DOM event binding is
modelled by listener counters on the elements; the tooltip hover handlers and
geometry reads are outside the model. -/

/-- The ghost layer `div`: its `hidden` class and its `innerHTML`. -/
structure GhostDom where
  hidden : Bool
  innerHTML : List Char
deriving DecidableEq

/-- The errors layer `div`: its `innerHTML` (the source never toggles a
`hidden` class on it). -/
structure ErrorsDom where
  innerHTML : List Char
deriving DecidableEq

/-- The suggestions layer `div`: its `hidden` class and its children, one
pill button per suggestion (a pill shows `suggestion.reason` and its click
handler applies that suggestion). -/
structure SuggDom where
  hidden : Bool
  pills : List RefineSuggestion
deriving DecidableEq

/-- The tooltip `div` (created and destroyed with the tree; its show/hide
hover behavior is not needed by any claim). -/
structure TooltipDom where
  hidden : Bool
  text : List Char
deriving DecidableEq

/-- The visual tree built by `ensureRoot` (root/text layer carry no modelled
state of their own beyond existing). -/
structure VisualTree where
  ghost : GhostDom
  errorsL : ErrorsDom
  sugg : SuggDom
  tooltip : TooltipDom
deriving DecidableEq

/-- The tree as `ensureRoot` creates it: ghost hidden and empty, errors
empty, suggestions visible with no pills, tooltip hidden. -/
def freshTree : VisualTree :=
  { ghost := { hidden := true, innerHTML := [] }
    errorsL := { innerHTML := [] }
    sugg := { hidden := false, pills := [] }
    tooltip := { hidden := true, text := [] } }

/-- The private fields of the `OverlayController` instance.  `root = none`
models all layer references being `null`; `hasTextObserver` etc. model the
nullable handler fields (`textObserver`, `scrollHandler`, `resizeObserver`). -/
structure Ctrl where
  root : Option VisualTree
  target : Option Nat
  hasTextObserver : Bool
  hasScrollHandler : Bool
  hasResizeObserver : Bool
  ghostCompletion : List Char
  suggestions : List RefineSuggestion
  errors : List CriticalError
  currentText : List Char
  flags : OverlayFeatureFlags
deriving DecidableEq

/-- An element of the page: its `value` and, for the teardown claims, how
many of the controller's input/scroll listeners are registered on it and
whether the controller's resize observer observes it. -/
structure ElemState where
  value : List Char
  inputListeners : Nat
  scrollListeners : Nat
  resizeObserved : Bool
deriving DecidableEq

/-- The whole modelled system: the controller, the document (elements indexed
by `Nat`), and the element `document.querySelector(TEXTAREA_SELECTOR)` would
currently return. -/
structure World where
  ctrl : Ctrl
  doc : Nat → ElemState
  queryResult : Option Nat

/-- The `innerHTML` `updateGhostLayer` writes: escaped current input value as
committed prefix, escaped completion as the ghost suffix. -/
def ghostMarkup (safeUser safeGhost : List Char) : List Char :=
  "<span class=\"refine-ghost-prefix\">".data ++ safeUser
    ++ "</span><span class=\"refine-ghost-completion\">".data ++ safeGhost
    ++ "</span>".data

/-- Point update of one document element. -/
def updElem (id : Nat) (f : ElemState → ElemState) (d : Nat → ElemState) : Nat → ElemState :=
  fun j => if j = id then f (d j) else d j

/-- Embeds `updateLayout`: pure geometry writes (position, size, typography), which
are outside the modelled state. -/
def updateLayout (w : World) : World := w

/-- Embeds `ensureRoot`: build the visual tree once; a no-op when it exists. -/
def ensureRoot (w : World) : World :=
  match w.ctrl.root with
  | some _ => w
  | none => { w with ctrl := { w.ctrl with root := some freshTree } }

/-- Embeds `detach`: remove the input/scroll listeners from the current target,
disconnect the resize observer, null out the handler fields and the target. -/
def detach (w : World) : World :=
  let doc1 :=
    match w.ctrl.target with
    | none => w.doc
    | some id =>
      let d1 := if w.ctrl.hasTextObserver then
          updElem id (fun e => { e with inputListeners := e.inputListeners - 1 }) w.doc
        else w.doc
      let d2 := if w.ctrl.hasScrollHandler then
          updElem id (fun e => { e with scrollListeners := e.scrollListeners - 1 }) d1
        else d1
      if w.ctrl.hasResizeObserver then
        updElem id (fun e => { e with resizeObserved := false }) d2
      else d2
  { w with
    doc := doc1
    ctrl := { w.ctrl with
      target := none
      hasTextObserver := false
      hasScrollHandler := false
      hasResizeObserver := false } }

/-- Embeds `destroy`: detach, then remove the root and the tooltip from the DOM and
null every layer reference. -/
def destroy (w : World) : World :=
  let w1 := detach w
  { w1 with ctrl := { w1.ctrl with root := none } }

/-- The ghost layer as `updateGhostLayer` leaves it: untouched when the
overlay or ghost flag is off (the source early-returns without hiding);
hidden and emptied when the completion is empty or no target exists;
otherwise overwritten with escaped committed prefix + escaped completion. -/
def ghostDomNext (w : World) (tr : VisualTree) : GhostDom :=
  if !w.ctrl.flags.overlayEnabled || !w.ctrl.flags.ghostTextEnabled then tr.ghost
  else
    match w.ctrl.target, w.ctrl.ghostCompletion with
    | some id, c :: cs =>
      { hidden := false
        innerHTML := ghostMarkup (escapeHtml (w.doc id).value) (escapeHtml (c :: cs)) }
    | _, _ => { hidden := true, innerHTML := [] }

/-- Embeds `updateGhostLayer`: a no-op without a ghost layer, otherwise the
layer becomes `ghostDomNext`. -/
def updateGhostLayer (w : World) : World :=
  match w.ctrl.root with
  | none => w
  | some tr =>
    { w with ctrl := { w.ctrl with root := some { tr with ghost := ghostDomNext w tr } } }

/-- The suggestions layer as `updateSuggestionsLayer` leaves it: cleared then
hidden when the overlay or suggestions flag is off or the list is empty;
otherwise visible with one pill per stored suggestion. -/
def suggDomNext (w : World) : SuggDom :=
  if !w.ctrl.flags.overlayEnabled || !w.ctrl.flags.suggestionsEnabled
      || w.ctrl.suggestions.isEmpty then
    { hidden := true, pills := [] }
  else
    { hidden := false, pills := w.ctrl.suggestions }

/-- Embeds `updateSuggestionsLayer`: a no-op without a layer, otherwise the
layer becomes `suggDomNext`. -/
def updateSuggestionsLayer (w : World) : World :=
  match w.ctrl.root with
  | none => w
  | some tr =>
    { w with ctrl := { w.ctrl with root := some { tr with sugg := suggDomNext w } } }

/-- The error layer as `updateErrorLayer` leaves it: cleared when the overlay
or errors flag is off or the list is empty; otherwise the built markup (the
hover/pointer bindings on the produced spans are outside the model). -/
def errorsDomNext (w : World) : ErrorsDom :=
  if !w.ctrl.flags.overlayEnabled || !w.ctrl.flags.criticalErrorsEnabled
      || w.ctrl.errors.isEmpty then
    { innerHTML := [] }
  else
    { innerHTML := buildErrorMarkup w.ctrl.currentText w.ctrl.errors }

/-- Embeds `updateErrorLayer`: a no-op without a layer, otherwise the layer
becomes `errorsDomNext`. -/
def updateErrorLayer (w : World) : World :=
  match w.ctrl.root with
  | none => w
  | some tr =>
    { w with ctrl := { w.ctrl with root := some { tr with errorsL := errorsDomNext w } } }

/-- Embeds `clearGhost`: empty the stored completion and re-render the ghost layer. -/
def clearGhost (w : World) : World :=
  updateGhostLayer { w with ctrl := { w.ctrl with ghostCompletion := [] } }

/-- The body of the `textObserver` closure installed by `setTarget`: refresh
`currentText` from the captured element, clear the ghost, re-render the error
layer, update the layout.  (While the observer is installed the captured
element is always the current target: `detach` clears both together.) -/
def observerBody (w : World) : World :=
  match w.ctrl.target with
  | none => w
  | some id =>
    updateLayout (updateErrorLayer (clearGhost
      { w with ctrl := { w.ctrl with currentText := (w.doc id).value } }))

/-- An `input` event dispatched on element `id`: runs the controller's
observer when it is registered on that element, otherwise does nothing. -/
def dispatchInput (w : World) (id : Nat) : World :=
  if w.ctrl.target = some id ∧ w.ctrl.hasTextObserver then observerBody w else w

/-- The user typing into element `id`: the element's value changes, then the
`input` event fires. -/
def userInput (w : World) (id : Nat) (v : List Char) : World :=
  dispatchInput { w with doc := updElem id (fun e => { e with value := v }) w.doc } id

/-- Embeds `setTarget`: no-op on the identical element; otherwise detach from the
old target, adopt the new one, destroy everything when it is `null` or the
overlay is disabled, else build the tree if needed, capture the baseline
text, install the input/scroll listeners and the resize observer, and update
the layout. -/
def setTarget (w : World) (element : Option Nat) : World :=
  if w.ctrl.target = element then w
  else
    let w1 := detach w
    let w2 := { w1 with ctrl := { w1.ctrl with target := element } }
    match element with
    | none => destroy w2
    | some id =>
      if !w2.ctrl.flags.overlayEnabled then destroy w2
      else
        let w3 := ensureRoot w2
        let w4 := { w3 with ctrl := { w3.ctrl with
          currentText := (w3.doc id).value
          hasTextObserver := true
          hasScrollHandler := true
          hasResizeObserver := true } }
        let w5 := { w4 with doc := updElem id (fun e =>
          { e with
            inputListeners := e.inputListeners + 1
            scrollListeners := e.scrollListeners + 1
            resizeObserved := true }) w4.doc }
        updateLayout w5

/-- Embeds `attachToActiveTextarea`: query the document for the tracked textarea and
set it as target. -/
def attachToActiveTextarea (w : World) : World :=
  setTarget w w.queryResult

/-- Embeds `setFlags`: store the flags; destroy everything when the overlay is
disabled; with a target, re-render every layer; without one, try to attach. -/
def setFlags (w : World) (flags : OverlayFeatureFlags) : World :=
  let w1 := { w with ctrl := { w.ctrl with flags := flags } }
  if !flags.overlayEnabled then destroy w1
  else
    match w1.ctrl.target with
    | some _ =>
      updateErrorLayer (updateSuggestionsLayer (updateGhostLayer (updateLayout (ensureRoot w1))))
    | none => attachToActiveTextarea w1

/-- Embeds `renderGhostText`: an empty completion clears the ghost; otherwise the
completion is stored (unconditionally) and the ghost layer re-rendered. -/
def renderGhostText (w : World) (completion : List Char) : World :=
  if completion = [] then clearGhost w
  else updateGhostLayer { w with ctrl := { w.ctrl with ghostCompletion := completion } }

/-- Embeds `renderSuggestions`: store the list (replacing the previous one) and
re-render the suggestions layer. -/
def renderSuggestions (w : World) (suggestions : List RefineSuggestion) : World :=
  updateSuggestionsLayer { w with ctrl := { w.ctrl with suggestions := suggestions } }

/-- Embeds `renderCriticalErrors`: store the list (replacing the previous one) and
re-render the error layer. -/
def renderCriticalErrors (w : World) (errors : List CriticalError) : World :=
  updateErrorLayer { w with ctrl := { w.ctrl with errors := errors } }

/-- Embeds `clearAll`: empty all three stored annotation states and re-render. -/
def clearAll (w : World) : World :=
  updateErrorLayer (updateSuggestionsLayer (updateGhostLayer
    { w with ctrl := { w.ctrl with ghostCompletion := [], suggestions := [], errors := [] } }))

/-- Embeds `applySuggestion`: with a target, append the suggestion's text to the
current value (separated by two newlines when the trimmed value is
non-empty, the value itself being `trimEnd`-ed), focus the target, and
dispatch a synthetic `input` event (which runs the installed observer). -/
def applySuggestion (w : World) (s : RefineSuggestion) : World :=
  match w.ctrl.target with
  | none => w
  | some id =>
    let current := (w.doc id).value
    let next :=
      if (jsTrim current).length > 0 then jsTrimEnd current ++ "\n\n".data ++ s.reason
      else s.reason
    dispatchInput { w with doc := updElem id (fun e => { e with value := next }) w.doc } id

/-- A click on pill `i` of the suggestions layer: runs that pill's click
handler, i.e. `applySuggestion` on the suggestion it was built from. -/
def clickPill (w : World) (i : Nat) : World :=
  match w.ctrl.root with
  | none => w
  | some tr =>
    match tr.sugg.pills[i]? with
    | none => w
    | some s => applySuggestion w s

/-! ## Concrete instances used by witnesses and counterexamples -/

/-- An element with a given value and nothing registered on it. -/
def elemWith (v : List Char) : ElemState :=
  { value := v, inputListeners := 0, scrollListeners := 0, resizeObserved := false }

/-- The flag record the controller instance starts with (all four true). -/
def initFlags : OverlayFeatureFlags :=
  { overlayEnabled := true, ghostTextEnabled := true
    suggestionsEnabled := true, criticalErrorsEnabled := true }

/-- The controller's fields as initialized at construction. -/
def initCtrl : Ctrl :=
  { root := none, target := none, hasTextObserver := false, hasScrollHandler := false
    hasResizeObserver := false, ghostCompletion := [], suggestions := [], errors := []
    currentText := [], flags := initFlags }

/-- A fresh page: every element carries value `v`, the selector query yields
`q`, the controller is freshly constructed. -/
def baseWorld (v : List Char) (q : Option Nat) : World :=
  { ctrl := initCtrl, doc := fun _ => elemWith v, queryResult := q }

/-- A world in which the controller is attached to element `0` (value
`"hi"`). -/
def wAttached : World :=
  setTarget (baseWorld "hi".data (some 0)) (some 0)

/-- Flags with only the ghost layer disabled. -/
def ghostOffFlags : OverlayFeatureFlags :=
  { initFlags with ghostTextEnabled := false }

/-- Flags with the overlay master switch disabled. -/
def overlayOffFlags : OverlayFeatureFlags :=
  { initFlags with overlayEnabled := false }

/-- Flags with the suggestions and errors layers disabled. -/
def sugErrOffFlags : OverlayFeatureFlags :=
  { initFlags with suggestionsEnabled := false, criticalErrorsEnabled := false }

/-- The suggestion of the spec's §8 example. -/
def sugEx : RefineSuggestion :=
  { type := "context".data, label := "Add context".data
    reason := "Clarify dataset source".data }

/-- The error annotation of the spec's §8 example. -/
def errEx : CriticalError :=
  { span := "this".data, message := "Ambiguous subject".data }

/-- First error of the overlap counterexample: `"aba"` occurs in `"aba"` at
`0`, giving range `[0, 3)`. -/
def errOverlapA : CriticalError :=
  { span := "aba".data, message := "mA".data }

/-- Second error of the overlap counterexample: `"ba"` occurs in `"aba"` at
`1`, giving range `[1, 3)`, which overlaps `[0, 3)`. -/
def errOverlapB : CriticalError :=
  { span := "ba".data, message := "mB".data }

/-- C4 counterexample state: ghost flag turned off on a fresh unattached
controller, then a completion is supplied. -/
def c4cexW : World :=
  renderGhostText (setFlags (baseWorld [] none) ghostOffFlags) "x".data

/-- C4 witness state: attached, with a pending completion. -/
def c4witW : World :=
  renderGhostText wAttached "go".data

/-- C5 counterexample, step 1: ghost rendered while everything is enabled. -/
def c5w2 : World :=
  renderGhostText wAttached "abc".data

/-- C5 counterexample, step 2: the ghost flag is switched off (the source
leaves the rendered ghost markup visible). -/
def c5w3 : World :=
  setFlags c5w2 ghostOffFlags

/-- C5 counterexample, step 3: a new completion arrives while the flag is
off: the stored suffix changes and the stale markup stays visible. -/
def c5w4 : World :=
  renderGhostText c5w3 "xyz".data

/-- C6 counterexample, step 1: a suggestion list is rendered while attached. -/
def c6w1 : World :=
  renderSuggestions wAttached [sugEx]

/-- C6 counterexample, step 2: the overlay master switch is turned off. -/
def c6w2 : World :=
  setFlags c6w1 overlayOffFlags

/-- C6 counterexample, step 3: the overlay is re-enabled with the textarea
still discoverable; the tree is rebuilt fresh and empty. -/
def c6w3 : World :=
  setFlags c6w2 initFlags

/-- C8 counterexample: a completion is stored while unattached, then a target
is attached; the prior ghost state survives the attach. -/
def c8cexW : World :=
  setTarget (renderGhostText (baseWorld "hi".data (some 0)) "x".data) (some 0)

/-- C9 counterexample, attached to a whitespace-only textarea. -/
def c9w1 : World :=
  setTarget (baseWorld " ".data (some 0)) (some 0)

/-- C9 counterexample: one pill rendered on the whitespace-only target. -/
def c9w2 : World :=
  renderSuggestions c9w1 [sugEx]

/-- C9 witness, attached to the spec's example value. -/
def c9aw1 : World :=
  setTarget (baseWorld "Analyze code".data (some 0)) (some 0)

/-- C9 witness: one pill rendered on the example target. -/
def c9aw2 : World :=
  renderSuggestions c9aw1 [sugEx]

/-- C10 witness, step 1: suggestions and errors layers disabled while
attached. -/
def c10w1 : World :=
  setFlags wAttached sugErrOffFlags

/-- C10 witness, step 2: annotation data arrives while its layers are
disabled. -/
def c10w2 : World :=
  renderCriticalErrors (renderSuggestions c10w1 [sugEx]) [errEx]

/-- Highlight list used by the C1 witness: the single span of the spec's §8
example, `"this"` at `[4, 8)` in `"Fix this now"`. -/
def hsEx : List Highlight :=
  sortedHighlights "Fix this now".data [errEx]

/-! ## Helper lemmas: escaping and slicing -/

theorem escapeHtml_cons (c : Char) (s : List Char) :
    escapeHtml (c :: s) = escChar c ++ escapeHtml s :=
  List.flatMap_cons c s escChar

theorem escChar_no_special (a : Char) :
    ∀ c ∈ escChar a, c ≠ '<' ∧ c ≠ '>' ∧ c ≠ '"' ∧ c ≠ '\'' := by
  unfold escChar
  split_ifs with h1 h2 h3 h4 h5
  · decide
  · decide
  · decide
  · decide
  · decide
  · intro c hc
    have : c = a := by simpa using hc
    subst this
    exact ⟨h2, h3, h4, h5⟩

theorem escapeHtml_no_special (s : List Char) :
    ∀ c ∈ escapeHtml s, c ≠ '<' ∧ c ≠ '>' ∧ c ≠ '"' ∧ c ≠ '\'' := by
  induction s with
  | nil => simp [escapeHtml]
  | cons a s ih =>
    intro c hc
    rw [escapeHtml_cons] at hc
    rcases List.mem_append.mp hc with h | h
    · exact escChar_no_special a c h
    · exact ih c h

theorem unescapeAux_cons_ne (n : Nat) (c : Char) (t : List Char) (h : c ≠ '&') :
    unescapeAux (n + 1) (c :: t) = c :: unescapeAux n t := by
  have hb : (c == '&') = false := by simp [h]
  simp [unescapeAux, hb]

theorem unescapeAux_escape (s : List Char) :
    ∀ fuel, (escapeHtml s).length ≤ fuel → unescapeAux fuel (escapeHtml s) = s := by
  induction s with
  | nil => intro fuel _; cases fuel <;> rfl
  | cons c s ih =>
    intro fuel hf
    by_cases h1 : c = '&'
    · subst h1
      have he : escapeHtml ('&' :: s) = '&' :: 'a' :: 'm' :: 'p' :: ';' :: escapeHtml s := rfl
      rw [he] at hf ⊢
      cases fuel with
      | zero => simp at hf
      | succ n =>
        have hr : unescapeAux (n + 1) ('&' :: 'a' :: 'm' :: 'p' :: ';' :: escapeHtml s)
            = '&' :: unescapeAux n (escapeHtml s) := rfl
        rw [hr, ih n (by simp [List.length_cons] at hf; omega)]
    · by_cases h2 : c = '<'
      · subst h2
        have he : escapeHtml ('<' :: s) = '&' :: 'l' :: 't' :: ';' :: escapeHtml s := rfl
        rw [he] at hf ⊢
        cases fuel with
        | zero => simp at hf
        | succ n =>
          have hr : unescapeAux (n + 1) ('&' :: 'l' :: 't' :: ';' :: escapeHtml s)
              = '<' :: unescapeAux n (escapeHtml s) := rfl
          rw [hr, ih n (by simp [List.length_cons] at hf; omega)]
      · by_cases h3 : c = '>'
        · subst h3
          have he : escapeHtml ('>' :: s) = '&' :: 'g' :: 't' :: ';' :: escapeHtml s := rfl
          rw [he] at hf ⊢
          cases fuel with
          | zero => simp at hf
          | succ n =>
            have hr : unescapeAux (n + 1) ('&' :: 'g' :: 't' :: ';' :: escapeHtml s)
                = '>' :: unescapeAux n (escapeHtml s) := rfl
            rw [hr, ih n (by simp [List.length_cons] at hf; omega)]
        · by_cases h4 : c = '"'
          · subst h4
            have he : escapeHtml ('"' :: s)
                = '&' :: 'q' :: 'u' :: 'o' :: 't' :: ';' :: escapeHtml s := rfl
            rw [he] at hf ⊢
            cases fuel with
            | zero => simp at hf
            | succ n =>
              have hr : unescapeAux (n + 1)
                  ('&' :: 'q' :: 'u' :: 'o' :: 't' :: ';' :: escapeHtml s)
                  = '"' :: unescapeAux n (escapeHtml s) := rfl
              rw [hr, ih n (by simp [List.length_cons] at hf; omega)]
          · by_cases h5 : c = '\''
            · subst h5
              have he : escapeHtml ('\'' :: s)
                  = '&' :: '#' :: '3' :: '9' :: ';' :: escapeHtml s := rfl
              rw [he] at hf ⊢
              cases fuel with
              | zero => simp at hf
              | succ n =>
                have hr : unescapeAux (n + 1)
                    ('&' :: '#' :: '3' :: '9' :: ';' :: escapeHtml s)
                    = '\'' :: unescapeAux n (escapeHtml s) := rfl
                rw [hr, ih n (by simp [List.length_cons] at hf; omega)]
            · have he : escapeHtml (c :: s) = c :: escapeHtml s := by
                rw [escapeHtml_cons]
                unfold escChar
                rw [if_neg h1, if_neg h2, if_neg h3, if_neg h4, if_neg h5]
                rfl
              rw [he] at hf ⊢
              cases fuel with
              | zero => simp at hf
              | succ n =>
                rw [unescapeAux_cons_ne n c _ h1,
                  ih n (by simp [List.length_cons] at hf; omega)]

theorem unescapeHtml_escapeHtml (s : List Char) : unescapeHtml (escapeHtml s) = s :=
  unescapeAux_escape s _ le_rfl

theorem sliceL_eq_drop_take (l : List Char) (a b : Nat) :
    sliceL l a b = (l.drop a).take (b - a) :=
  List.drop_take b a l

theorem sliceL_append_drop (l : List Char) (a b : Nat) (hab : a ≤ b) :
    sliceL l a b ++ l.drop b = l.drop a := by
  rw [sliceL_eq_drop_take]
  have h2 : l.drop b = (l.drop a).drop (b - a) := by
    rw [List.drop_drop]
    congr 1
    omega
  rw [h2, List.take_append_drop]

/-! ## Helper lemmas: the markup loop against its segment decomposition -/

theorem markupLoop_eq_segs (text : List Char) :
    ∀ (hs : List Highlight) (c i : Nat),
      markupLoop text c i hs = ((markupSegs text c i hs).map renderSeg).flatten := by
  intro hs
  induction hs with
  | nil => intro c i; simp [markupLoop, markupSegs, renderSeg]
  | cons h t ih =>
    intro c i
    simp [markupLoop, markupSegs, renderSeg, ih, List.append_assoc]

theorem markupSegs_fst_flatten (text : List Char) :
    ∀ (hs : List Highlight) (c i : Nat),
      (∀ h ∈ hs, h.start ≤ h.stop) →
      List.Chain' (fun a b => a.stop ≤ b.start) hs →
      (∀ h, hs.head? = some h → c ≤ h.start) →
      ((markupSegs text c i hs).map Prod.fst).flatten = text.drop c := by
  intro hs
  induction hs with
  | nil => intro c i _ _ _; simp [markupSegs]
  | cons h t ih =>
    intro c i hse hch hhd
    have hcs : c ≤ h.start := hhd h rfl
    have hstop : h.start ≤ h.stop := hse h (by simp)
    have ht : ((markupSegs text h.stop (i + 1) t).map Prod.fst).flatten = text.drop h.stop := by
      apply ih
      · intro x hx; exact hse x (by simp [hx])
      · exact hch.tail
      · intro x hx
        cases t with
        | nil => simp at hx
        | cons y ys =>
          have hxy : y = x := by simpa using hx
          subst hxy
          exact (List.chain'_cons.mp hch).1
    simp only [markupSegs, List.map_cons, List.flatten_cons, ht]
    rw [sliceL_append_drop text h.start h.stop hstop,
      sliceL_append_drop text c h.start hcs]

/-! ## Helper lemmas: locating spans -/

theorem matchesAt_take (needle : List Char) :
    ∀ hay, matchesAt needle hay = true ↔ hay.take needle.length = needle := by
  induction needle with
  | nil => intro hay; simp only [matchesAt]; simp
  | cons a as ih =>
    intro hay
    cases hay with
    | nil => simp only [matchesAt]; simp
    | cons b bs =>
      simp only [matchesAt, List.length_cons, List.take_succ_cons, Bool.and_eq_true,
        beq_iff_eq, List.cons.injEq, ih bs]
      tauto

theorem jsIndexOf_spec (hay : List Char) :
    ∀ (needle : List Char) (i : Nat), jsIndexOf hay needle = some i →
      matchesAt needle (hay.drop i) = true
        ∧ ∀ j < i, matchesAt needle (hay.drop j) = false := by
  induction hay with
  | nil =>
    intro needle i h
    unfold jsIndexOf at h
    split at h
    · rename_i hm
      have : i = 0 := by simpa using h.symm
      subst this
      exact ⟨hm, by omega⟩
    · simp at h
  | cons a t ih =>
    intro needle i h
    unfold jsIndexOf at h
    split at h
    · rename_i hm
      have : i = 0 := by simpa using h.symm
      subst this
      exact ⟨hm, by omega⟩
    · rename_i hm
      rcases Option.map_eq_some'.mp h with ⟨j, hj, rfl⟩
      obtain ⟨hmat, hmin⟩ := ih needle j hj
      refine ⟨hmat, ?_⟩
      intro k hk
      cases k with
      | zero => simpa using Bool.eq_false_iff.mpr hm
      | succ k2 =>
        have : k2 < j := by omega
        simpa using hmin k2 this

theorem locateError_some (text : List Char) (e : CriticalError) (h : Highlight)
    (hl : locateError text e = some h) :
    h.error = e ∧ jsTrim e.span ≠ []
      ∧ jsIndexOf (toLowerL text) (toLowerL (jsTrim e.span)) = some h.start
      ∧ h.stop = h.start + (jsTrim e.span).length := by
  simp only [locateError] at hl
  split at hl
  · simp at hl
  · rename_i hne
    split at hl
    · simp at hl
    · rename_i s hidx
      have hh := hl
      injection hh with hh2
      subst hh2
      exact ⟨rfl, hne, hidx, rfl⟩

theorem toLowerL_sliceL (text : List Char) (a n : Nat) :
    toLowerL (sliceL text a (a + n)) = ((toLowerL text).drop a).take n := by
  unfold sliceL toLowerL
  rw [List.map_drop, List.map_take, List.drop_take]
  congr 1
  omega

theorem locateError_substring (text : List Char) (e : CriticalError) (h : Highlight)
    (hl : locateError text e = some h) :
    toLowerL (sliceL text h.start h.stop) = toLowerL (jsTrim e.span) := by
  obtain ⟨-, -, hidx, hstop⟩ := locateError_some text e h hl
  have hm := (jsIndexOf_spec _ _ _ hidx).1
  have htake := (matchesAt_take _ _).mp hm
  have hlen : (toLowerL (jsTrim e.span)).length = (jsTrim e.span).length := by
    simp [toLowerL]
  rw [hlen] at htake
  rw [hstop, toLowerL_sliceL, htake]

/-! ## Helper lemmas: the stable sort -/

theorem insertHL_perm (h : Highlight) (l : List Highlight) :
    List.Perm (insertHL h l) (h :: l) := by
  induction l with
  | nil => exact List.Perm.refl _
  | cons k ks ih =>
    unfold insertHL
    split
    · exact List.Perm.refl _
    · exact List.Perm.trans (List.Perm.cons k ih) (List.Perm.swap h k ks)

theorem insertHL_mem (x h : Highlight) (l : List Highlight) :
    x ∈ insertHL h l ↔ x = h ∨ x ∈ l := by
  rw [(insertHL_perm h l).mem_iff]
  simp

theorem pairwise_insertHL (h : Highlight) (l : List Highlight)
    (hp : List.Pairwise (fun a b => a.start ≤ b.start) l) :
    List.Pairwise (fun a b => a.start ≤ b.start) (insertHL h l) := by
  induction l with
  | nil => simp [insertHL]
  | cons k ks ih =>
    rcases List.pairwise_cons.mp hp with ⟨hk, hks⟩
    unfold insertHL
    split
    · rename_i hle
      refine List.Pairwise.cons ?_ hp
      intro x hx
      rcases List.mem_cons.mp hx with rfl | hx
      · exact hle
      · exact le_trans hle (hk x hx)
    · rename_i hgt
      refine List.Pairwise.cons ?_ (ih hks)
      intro x hx
      rcases (insertHL_mem x h ks).mp hx with rfl | hx
      · omega
      · exact hk x hx

theorem sortHLs_perm (l : List Highlight) : List.Perm (sortHLs l) l := by
  induction l with
  | nil => exact List.Perm.refl _
  | cons h t ih =>
    exact List.Perm.trans (insertHL_perm h (sortHLs t)) (List.Perm.cons h ih)

theorem sortHLs_pairwise (l : List Highlight) :
    List.Pairwise (fun a b => a.start ≤ b.start) (sortHLs l) := by
  induction l with
  | nil => simp [sortHLs]
  | cons h t ih => exact pairwise_insertHL h (sortHLs t) ih

/-! ## The claims -/

/-- C1: for every text and every sorted, non-overlapping highlight list, the
markup loop of `buildErrorMarkup` renders exactly the segment decomposition
`markupSegs` — so every emitted piece of text passes through `escapeHtml`,
each wrapper carries the escaped message and its positional index, and the
wrapper boundaries are exactly the span boundaries; the raw contents of the
segments concatenate back to the whole text (every character appears exactly
once, in exactly one segment); unescaping each escaped segment and
concatenating also reconstructs the text; no escaped segment contains an
unescaped `<`, `>`, `"` or `'`; and for the empty span list the output is
the fully escaped text with no wrappers. -/
theorem markup_builder_contract (text : List Char) (hs : List Highlight)
    (hord : List.Chain' (fun a b => a.stop ≤ b.start) hs)
    (hwf : ∀ h ∈ hs, h.start ≤ h.stop) :
    markupLoop text 0 0 hs = ((markupSegs text 0 0 hs).map renderSeg).flatten
      ∧ ((markupSegs text 0 0 hs).map Prod.fst).flatten = text
      ∧ ((markupSegs text 0 0 hs).map fun p => unescapeHtml (escapeHtml p.1)).flatten = text
      ∧ (∀ p ∈ markupSegs text 0 0 hs, ∀ c ∈ escapeHtml p.1,
          c ≠ '<' ∧ c ≠ '>' ∧ c ≠ '"' ∧ c ≠ '\'')
      ∧ markupLoop text 0 0 [] = escapeHtml text
      ∧ buildErrorMarkup text [] = escapeHtml text := by
  have hfst : ((markupSegs text 0 0 hs).map Prod.fst).flatten = text := by
    have h0 := markupSegs_fst_flatten text hs 0 0 hwf hord (fun h _ => Nat.zero_le _)
    simpa using h0
  refine ⟨markupLoop_eq_segs text hs 0 0, hfst, ?_, ?_, ?_, ?_⟩
  · have hm : ((markupSegs text 0 0 hs).map fun p => unescapeHtml (escapeHtml p.1))
        = (markupSegs text 0 0 hs).map Prod.fst :=
      List.map_congr_left (fun p _ => unescapeHtml_escapeHtml p.1)
    rw [hm, hfst]
  · intro p _ c hc
    exact escapeHtml_no_special p.1 c hc
  · simp [markupLoop]
  · unfold buildErrorMarkup
    split
    · rename_i h0
      subst h0
      rfl
    · simp [sortedHighlights, collectHighlights, sortHLs, markupLoop]

/-- C1 witness: the contract instantiated at the spec's §8 example,
`"Fix this now"` with the single located span `"this"` at `[4, 8)`. -/
theorem markup_builder_contract_witness :
    (List.Chain' (fun a b => a.stop ≤ b.start) hsEx ∧ ∀ h ∈ hsEx, h.start ≤ h.stop)
      ∧ (markupLoop "Fix this now".data 0 0 hsEx
            = ((markupSegs "Fix this now".data 0 0 hsEx).map renderSeg).flatten
        ∧ ((markupSegs "Fix this now".data 0 0 hsEx).map Prod.fst).flatten
            = "Fix this now".data
        ∧ ((markupSegs "Fix this now".data 0 0 hsEx).map
              fun p => unescapeHtml (escapeHtml p.1)).flatten = "Fix this now".data
        ∧ (∀ p ∈ markupSegs "Fix this now".data 0 0 hsEx, ∀ c ∈ escapeHtml p.1,
            c ≠ '<' ∧ c ≠ '>' ∧ c ≠ '"' ∧ c ≠ '\'')
        ∧ markupLoop "Fix this now".data 0 0 [] = escapeHtml "Fix this now".data
        ∧ buildErrorMarkup "Fix this now".data [] = escapeHtml "Fix this now".data) := by
  have hchain : List.Chain' (fun a b => a.stop ≤ b.start) hsEx := by
    rw [show hsEx = [{ start := 4, stop := 8, error := errEx }] from by decide]
    exact List.chain'_singleton _
  exact ⟨⟨hchain, by decide⟩,
    markup_builder_contract "Fix this now".data hsEx hchain (by decide)⟩

/-- C2: the span locator of `buildErrorMarkup` returns highlights sorted
ascending by `start`, a permutation of the per-error located spans (queries
empty after trimming or with no case-insensitive occurrence are skipped,
every other query contributes its record); every returned highlight carries
a source error from the input list, spans `[start, start + length)` of its
trimmed query, its substring of the text is case-insensitively equal to the
trimmed query, and no earlier position matches (first occurrence).  The
locator is a plain function of the text and the query list, hence
deterministic. -/
theorem span_locator_contract (text : List Char) (errors : List CriticalError) :
    List.Pairwise (fun a b => a.start ≤ b.start) (sortedHighlights text errors)
      ∧ List.Perm (sortedHighlights text errors) (errors.filterMap (locateError text))
      ∧ ∀ h ∈ sortedHighlights text errors,
          h.error ∈ errors
          ∧ jsTrim h.error.span ≠ []
          ∧ h.stop = h.start + (jsTrim h.error.span).length
          ∧ toLowerL (sliceL text h.start h.stop) = toLowerL (jsTrim h.error.span)
          ∧ ∀ j < h.start,
              matchesAt (toLowerL (jsTrim h.error.span)) ((toLowerL text).drop j) = false := by
  refine ⟨sortHLs_pairwise _, sortHLs_perm _, ?_⟩
  intro h hmem
  have hmem2 : h ∈ collectHighlights text errors :=
    (sortHLs_perm (collectHighlights text errors)).mem_iff.mp hmem
  rcases List.mem_filterMap.mp hmem2 with ⟨e, he, hsome⟩
  obtain ⟨herr, hne, hidx, hstop⟩ := locateError_some text e h hsome
  subst herr
  exact ⟨he, hne, hstop, locateError_substring _ _ _ hsome,
    fun j hj => (jsIndexOf_spec _ _ _ hidx).2 j hj⟩

/-- C3 counterexample: on text `"aba"` with queries `"aba"` and `"ba"`, the
produced ranges are `[0, 3)` and `[1, 3)` — the second starts before the
first ends, so ranges do overlap and nothing rejects or truncates them
before the markup loop runs. -/
theorem spans_overlap_counterexample :
    (sortedHighlights "aba".data [errOverlapA, errOverlapB]).map
        (fun h => (h.start, h.stop)) = [(0, 3), (1, 3)]
      ∧ ¬ List.Chain' (fun a b => a.stop ≤ b.start)
          (sortedHighlights "aba".data [errOverlapA, errOverlapB]) := by
  refine ⟨by decide, ?_⟩
  intro hch
  rw [show sortedHighlights "aba".data [errOverlapA, errOverlapB]
      = [{ start := 0, stop := 3, error := errOverlapA },
         { start := 1, stop := 3, error := errOverlapB }] from by decide] at hch
  exact absurd (List.chain'_pair.mp hch) (by decide)

/-- C3 (amended): the produced ranges are monotonically non-decreasing in
`start` (the list is sorted ascending by `start`), but overlapping spans are
neither rejected nor truncated — overlaps can reach the markup loop. -/
theorem spans_sorted_by_start (text : List Char) (errors : List CriticalError) :
    List.Pairwise (fun a b => a.start ≤ b.start) (sortedHighlights text errors) :=
  sortHLs_pairwise (collectHighlights text errors)

/-- C4 counterexample: with the ghost flag false (set on a fresh controller
through `setFlags`), `renderGhostText` still stores a non-empty pending
completion suffix — the ghost state is not empty while the flag is false,
refuting the claimed invariant. -/
theorem ghost_state_flag_counterexample :
    c4cexW.ctrl.flags.ghostTextEnabled = false
      ∧ c4cexW.ctrl.ghostCompletion = "x".data
      ∧ "x".data ≠ ([] : List Char) :=
  ⟨by decide, by decide, by decide⟩

/-- C4 (amended): the stored pending completion suffix is not cleared when
the ghost flag is false (it is merely not rendered); it is cleared whenever
an `input` event fires on the tracked target — regardless of which
operations ran before. -/
theorem ghost_cleared_on_input (w : World) (id : Nat)
    (hT : w.ctrl.target = some id) (hO : w.ctrl.hasTextObserver = true) :
    (dispatchInput w id).ctrl.ghostCompletion = [] := by
  obtain ⟨⟨root0, tgt0, hTO, hSH, hRO, gc, sug, err, cur, fl⟩, doc0, q0⟩ := w
  simp only at hT hO
  subst hT
  subst hO
  cases root0 <;>
    simp [dispatchInput, observerBody, clearGhost, updateGhostLayer, ghostDomNext,
      updateErrorLayer, errorsDomNext, updateLayout]

/-- C4 witness: on an attached controller with a pending completion, one
input event empties the stored suffix. -/
theorem ghost_cleared_on_input_witness :
    (c4witW.ctrl.target = some 0 ∧ c4witW.ctrl.hasTextObserver = true)
      ∧ (dispatchInput c4witW 0).ctrl.ghostCompletion = [] :=
  ⟨⟨by decide, by decide⟩, ghost_cleared_on_input c4witW 0 (by decide) (by decide)⟩

/-- C5 counterexample: after the ghost flag is switched off, a further
`renderGhostText` call is neither a no-op (the stored suffix changes from
`"abc"` to `"xyz"`) nor does it hide the existing ghost markup (the layer
stays visible with the stale rendering of `"abc"`). -/
theorem renderGhost_disabled_counterexample :
    c5w3.ctrl.flags.ghostTextEnabled = false
      ∧ c5w3.ctrl.ghostCompletion = "abc".data
      ∧ (c5w4.ctrl.root.map fun tr => tr.ghost.hidden) = some false
      ∧ (c5w4.ctrl.root.map fun tr => tr.ghost.innerHTML)
          = some (ghostMarkup (escapeHtml "hi".data) (escapeHtml "abc".data))
      ∧ c5w4.ctrl.ghostCompletion = "xyz".data :=
  ⟨by decide, by decide, by decide, by decide, by decide⟩

/-- C5 (amended): `renderGhostText` always stores exactly the new completion
(full replacement, never concatenation); when the overlay or ghost flag is
false it leaves the ghost layer DOM untouched (it does not hide it); when
the flags are on, an empty completion fully clears and hides the layer, and
a non-empty one overwrites the layer with the escaped current input value as
committed prefix plus the escaped new text as suffix. -/
theorem renderGhost_amended (w : World) (t : List Char) (tr : VisualTree) (id : Nat)
    (hroot : w.ctrl.root = some tr) (htgt : w.ctrl.target = some id) :
    (renderGhostText w t).ctrl.ghostCompletion = t
      ∧ (renderGhostText w t).ctrl.root =
          some (if !w.ctrl.flags.overlayEnabled || !w.ctrl.flags.ghostTextEnabled then tr
            else if t = [] then { tr with ghost := ⟨true, []⟩ }
            else { tr with
              ghost := ⟨false, ghostMarkup (escapeHtml (w.doc id).value) (escapeHtml t)⟩ }) := by
  obtain ⟨⟨root0, tgt0, hTO, hSH, hRO, gc, sug, err, cur, fl⟩, doc0, q0⟩ := w
  simp only at hroot htgt
  subst hroot
  subst htgt
  obtain ⟨ov, gh, su, ce⟩ := fl
  cases ov <;> cases gh <;> cases t <;>
    simp [renderGhostText, clearGhost, updateGhostLayer, ghostDomNext]

/-- C5 witness: the amended contract instantiated on an attached controller
whose ghost layer shows `"abc"`, re-rendered with `"ab"`. -/
theorem renderGhost_amended_witness :
    (c5w2.ctrl.root = some { freshTree with
          ghost := ⟨false, ghostMarkup (escapeHtml "hi".data) (escapeHtml "abc".data)⟩ }
        ∧ c5w2.ctrl.target = some 0)
      ∧ ((renderGhostText c5w2 "ab".data).ctrl.ghostCompletion = "ab".data
        ∧ (renderGhostText c5w2 "ab".data).ctrl.root =
            some (if !c5w2.ctrl.flags.overlayEnabled || !c5w2.ctrl.flags.ghostTextEnabled
              then { freshTree with
                ghost := ⟨false, ghostMarkup (escapeHtml "hi".data) (escapeHtml "abc".data)⟩ }
              else if "ab".data = ([] : List Char)
              then { { freshTree with
                  ghost := ⟨false, ghostMarkup (escapeHtml "hi".data) (escapeHtml "abc".data)⟩ }
                  with ghost := ⟨true, []⟩ }
              else { { freshTree with
                  ghost := ⟨false, ghostMarkup (escapeHtml "hi".data) (escapeHtml "abc".data)⟩ }
                  with ghost := ⟨false, ghostMarkup (escapeHtml (c5w2.doc 0).value)
                    (escapeHtml "ab".data)⟩ })) :=
  ⟨⟨by decide, by decide⟩,
    renderGhost_amended c5w2 "ab".data
      { freshTree with
        ghost := ⟨false, ghostMarkup (escapeHtml "hi".data) (escapeHtml "abc".data)⟩ }
      0 (by decide) (by decide)⟩

/-- C6 counterexample: a suggestion pill is rendered, the overlay is
disabled and then re-enabled with the same textarea still discoverable and
re-attached — yet the suggestions layer of the rebuilt tree is empty even
though the stored list is intact and all flags are on: re-enabling does not
restore the rendering of the most recently set state. -/
theorem setFlags_restore_counterexample :
    (c6w1.ctrl.root.map fun tr => tr.sugg.pills) = some [sugEx]
      ∧ c6w3.ctrl.flags = initFlags
      ∧ c6w3.ctrl.target = some 0
      ∧ c6w3.ctrl.suggestions = [sugEx]
      ∧ (c6w3.ctrl.root.map fun tr => tr.sugg.pills) = some []
      ∧ [sugEx] ≠ ([] : List RefineSuggestion) :=
  ⟨by decide, by decide, by decide, by decide, by decide, by decide⟩

/-- C6 (amended): disabling the overlay destroys the visual tree, clears the
target reference and removes the target's listeners; re-enabling it with the
textarea still discoverable re-attaches and rebuilds a fresh, empty visual
tree — the stored ghost/suggestion/error data is retained but is not
re-rendered by the re-enabling `setFlags` call itself. -/
theorem setFlags_overlay_cycle (w : World) (id : Nat)
    (offFlags onFlags : OverlayFeatureFlags)
    (hT : w.ctrl.target = some id)
    (hTO : w.ctrl.hasTextObserver = true) (hSH : w.ctrl.hasScrollHandler = true)
    (hRO : w.ctrl.hasResizeObserver = true)
    (hoff : offFlags.overlayEnabled = false) (hon : onFlags.overlayEnabled = true)
    (hq : w.queryResult = some id) :
    (setFlags w offFlags).ctrl.root = none
      ∧ (setFlags w offFlags).ctrl.target = none
      ∧ (setFlags w offFlags).ctrl.hasTextObserver = false
      ∧ ((setFlags w offFlags).doc id).inputListeners = (w.doc id).inputListeners - 1
      ∧ ((setFlags w offFlags).doc id).scrollListeners = (w.doc id).scrollListeners - 1
      ∧ ((setFlags w offFlags).doc id).resizeObserved = false
      ∧ (setFlags (setFlags w offFlags) onFlags).ctrl.root = some freshTree
      ∧ (setFlags (setFlags w offFlags) onFlags).ctrl.target = some id
      ∧ (setFlags (setFlags w offFlags) onFlags).ctrl.ghostCompletion = w.ctrl.ghostCompletion
      ∧ (setFlags (setFlags w offFlags) onFlags).ctrl.suggestions = w.ctrl.suggestions
      ∧ (setFlags (setFlags w offFlags) onFlags).ctrl.errors = w.ctrl.errors := by
  obtain ⟨⟨root0, tgt0, hTO0, hSH0, hRO0, gc, sug, err, cur, fl⟩, doc0, q0⟩ := w
  simp only at hT hTO hSH hRO hq
  subst hT
  subst hTO
  subst hSH
  subst hRO
  subst hq
  obtain ⟨oov, ogh, osu, oce⟩ := offFlags
  obtain ⟨nov, ngh, nsu, nce⟩ := onFlags
  simp only at hoff hon
  subst hoff
  subst hon
  simp [setFlags, destroy, detach, attachToActiveTextarea, setTarget, ensureRoot,
    updateLayout, updElem]

/-- C6 witness: the cycle instantiated on the attached controller with a
rendered suggestion. -/
theorem setFlags_overlay_cycle_witness :
    (c6w1.ctrl.target = some 0
        ∧ c6w1.ctrl.hasTextObserver = true ∧ c6w1.ctrl.hasScrollHandler = true
        ∧ c6w1.ctrl.hasResizeObserver = true
        ∧ overlayOffFlags.overlayEnabled = false ∧ initFlags.overlayEnabled = true
        ∧ c6w1.queryResult = some 0)
      ∧ ((setFlags c6w1 overlayOffFlags).ctrl.root = none
        ∧ (setFlags c6w1 overlayOffFlags).ctrl.target = none
        ∧ (setFlags c6w1 overlayOffFlags).ctrl.hasTextObserver = false
        ∧ ((setFlags c6w1 overlayOffFlags).doc 0).inputListeners
            = (c6w1.doc 0).inputListeners - 1
        ∧ ((setFlags c6w1 overlayOffFlags).doc 0).scrollListeners
            = (c6w1.doc 0).scrollListeners - 1
        ∧ ((setFlags c6w1 overlayOffFlags).doc 0).resizeObserved = false
        ∧ (setFlags (setFlags c6w1 overlayOffFlags) initFlags).ctrl.root = some freshTree
        ∧ (setFlags (setFlags c6w1 overlayOffFlags) initFlags).ctrl.target = some 0
        ∧ (setFlags (setFlags c6w1 overlayOffFlags) initFlags).ctrl.ghostCompletion
            = c6w1.ctrl.ghostCompletion
        ∧ (setFlags (setFlags c6w1 overlayOffFlags) initFlags).ctrl.suggestions
            = c6w1.ctrl.suggestions
        ∧ (setFlags (setFlags c6w1 overlayOffFlags) initFlags).ctrl.errors
            = c6w1.ctrl.errors) :=
  ⟨⟨by decide, by decide, by decide, by decide, by decide, by decide, by decide⟩,
    setFlags_overlay_cycle c6w1 0 overlayOffFlags initFlags (by decide) (by decide)
      (by decide) (by decide) (by decide) (by decide) (by decide)⟩

/-- C7: re-attaching the controller to the element it is already attached to
is a complete no-op (the state, including every listener registration, is
unchanged — registrations do not double); attaching to a different element
removes the input/scroll listeners and the resize observation from the old
target, installs them on the new target, and reuses the existing visual tree
unchanged, so exactly one visual tree exists afterwards. -/
theorem attach_idempotent_and_swap (w : World) (a b : Nat) (tr : VisualTree)
    (hT : w.ctrl.target = some a) (hroot : w.ctrl.root = some tr)
    (hTO : w.ctrl.hasTextObserver = true) (hSH : w.ctrl.hasScrollHandler = true)
    (hRO : w.ctrl.hasResizeObserver = true)
    (hOv : w.ctrl.flags.overlayEnabled = true)
    (hab : a ≠ b) :
    setTarget w (some a) = w
      ∧ (setTarget w (some b)).ctrl.target = some b
      ∧ (setTarget w (some b)).ctrl.root = some tr
      ∧ ((setTarget w (some b)).doc a).inputListeners = (w.doc a).inputListeners - 1
      ∧ ((setTarget w (some b)).doc a).scrollListeners = (w.doc a).scrollListeners - 1
      ∧ ((setTarget w (some b)).doc a).resizeObserved = false
      ∧ ((setTarget w (some b)).doc b).inputListeners = (w.doc b).inputListeners + 1
      ∧ ((setTarget w (some b)).doc b).scrollListeners = (w.doc b).scrollListeners + 1
      ∧ ((setTarget w (some b)).doc b).resizeObserved = true := by
  obtain ⟨⟨root0, tgt0, hTO0, hSH0, hRO0, gc, sug, err, cur, fl⟩, doc0, q0⟩ := w
  simp only at hT hroot hTO hSH hRO hOv
  subst hT
  subst hroot
  subst hTO
  subst hSH
  subst hRO
  obtain ⟨ov, gh, su, ce⟩ := fl
  simp only at hOv
  subst hOv
  have hba : b ≠ a := Ne.symm hab
  simp [setTarget, detach, destroy, ensureRoot, updateLayout, updElem, hab, hba]

/-- C7 witness: attached to element `0`, re-attach to `0` then attach to
element `1`. -/
theorem attach_idempotent_and_swap_witness :
    (wAttached.ctrl.target = some 0 ∧ wAttached.ctrl.root = some freshTree
        ∧ wAttached.ctrl.hasTextObserver = true ∧ wAttached.ctrl.hasScrollHandler = true
        ∧ wAttached.ctrl.hasResizeObserver = true
        ∧ wAttached.ctrl.flags.overlayEnabled = true ∧ (0 : Nat) ≠ 1)
      ∧ (setTarget wAttached (some 0) = wAttached
        ∧ (setTarget wAttached (some 1)).ctrl.target = some 1
        ∧ (setTarget wAttached (some 1)).ctrl.root = some freshTree
        ∧ ((setTarget wAttached (some 1)).doc 0).inputListeners
            = (wAttached.doc 0).inputListeners - 1
        ∧ ((setTarget wAttached (some 1)).doc 0).scrollListeners
            = (wAttached.doc 0).scrollListeners - 1
        ∧ ((setTarget wAttached (some 1)).doc 0).resizeObserved = false
        ∧ ((setTarget wAttached (some 1)).doc 1).inputListeners
            = (wAttached.doc 1).inputListeners + 1
        ∧ ((setTarget wAttached (some 1)).doc 1).scrollListeners
            = (wAttached.doc 1).scrollListeners + 1
        ∧ ((setTarget wAttached (some 1)).doc 1).resizeObserved = true) :=
  ⟨⟨by decide, by decide, by decide, by decide, by decide, by decide, by decide⟩,
    attach_idempotent_and_swap wAttached 0 1 freshTree (by decide) (by decide)
      (by decide) (by decide) (by decide) (by decide) (by decide)⟩

/-- C8 counterexample: a completion stored while unattached survives a
successful attach — `setTarget` does not clear prior ghost (or suggestion or
error) state, refuting that part of the claim. -/
theorem attach_clears_state_counterexample :
    c8cexW.ctrl.target = some 0
      ∧ c8cexW.ctrl.root = some freshTree
      ∧ c8cexW.ctrl.ghostCompletion = "x".data
      ∧ "x".data ≠ ([] : List Char) :=
  ⟨by decide, by decide, by decide, by decide⟩

/-- C8 (amended): a successful attach from the unattached state builds the
visual tree when the overlay is enabled, installs the input/scroll listeners
and the resize observation on the target, and captures the target's current
value as baseline text — but it does not clear prior ghost, suggestion or
error state, which all survive unchanged. -/
theorem attach_effects (w : World) (id : Nat)
    (hT : w.ctrl.target = none) (hroot : w.ctrl.root = none)
    (hOv : w.ctrl.flags.overlayEnabled = true) :
    (setTarget w (some id)).ctrl.target = some id
      ∧ (setTarget w (some id)).ctrl.root = some freshTree
      ∧ (setTarget w (some id)).ctrl.hasTextObserver = true
      ∧ (setTarget w (some id)).ctrl.hasScrollHandler = true
      ∧ (setTarget w (some id)).ctrl.hasResizeObserver = true
      ∧ ((setTarget w (some id)).doc id).inputListeners = (w.doc id).inputListeners + 1
      ∧ ((setTarget w (some id)).doc id).scrollListeners = (w.doc id).scrollListeners + 1
      ∧ ((setTarget w (some id)).doc id).resizeObserved = true
      ∧ (setTarget w (some id)).ctrl.currentText = (w.doc id).value
      ∧ (setTarget w (some id)).ctrl.ghostCompletion = w.ctrl.ghostCompletion
      ∧ (setTarget w (some id)).ctrl.suggestions = w.ctrl.suggestions
      ∧ (setTarget w (some id)).ctrl.errors = w.ctrl.errors := by
  obtain ⟨⟨root0, tgt0, hTO0, hSH0, hRO0, gc, sug, err, cur, fl⟩, doc0, q0⟩ := w
  simp only at hT hroot hOv
  subst hT
  subst hroot
  obtain ⟨ov, gh, su, ce⟩ := fl
  simp only at hOv
  subst hOv
  simp [setTarget, detach, destroy, ensureRoot, updateLayout, updElem]

/-- C8 witness: attaching a fresh controller (carrying a stored completion)
to element `0` of a page whose elements hold `"hi"`. -/
theorem attach_effects_witness :
    ((renderGhostText (baseWorld "hi".data (some 0)) "x".data).ctrl.target = none
        ∧ (renderGhostText (baseWorld "hi".data (some 0)) "x".data).ctrl.root = none
        ∧ (renderGhostText (baseWorld "hi".data (some 0))
            "x".data).ctrl.flags.overlayEnabled = true)
      ∧ (c8cexW.ctrl.target = some 0
        ∧ c8cexW.ctrl.root = some freshTree
        ∧ c8cexW.ctrl.hasTextObserver = true
        ∧ c8cexW.ctrl.hasScrollHandler = true
        ∧ c8cexW.ctrl.hasResizeObserver = true
        ∧ (c8cexW.doc 0).inputListeners
            = ((renderGhostText (baseWorld "hi".data (some 0)) "x".data).doc 0).inputListeners + 1
        ∧ (c8cexW.doc 0).scrollListeners
            = ((renderGhostText (baseWorld "hi".data (some 0)) "x".data).doc 0).scrollListeners + 1
        ∧ (c8cexW.doc 0).resizeObserved = true
        ∧ c8cexW.ctrl.currentText
            = ((renderGhostText (baseWorld "hi".data (some 0)) "x".data).doc 0).value
        ∧ c8cexW.ctrl.ghostCompletion
            = (renderGhostText (baseWorld "hi".data (some 0)) "x".data).ctrl.ghostCompletion
        ∧ c8cexW.ctrl.suggestions
            = (renderGhostText (baseWorld "hi".data (some 0)) "x".data).ctrl.suggestions
        ∧ c8cexW.ctrl.errors
            = (renderGhostText (baseWorld "hi".data (some 0)) "x".data).ctrl.errors) :=
  ⟨⟨by decide, by decide, by decide⟩,
    attach_effects (renderGhostText (baseWorld "hi".data (some 0)) "x".data) 0
      (by decide) (by decide) (by decide)⟩

/-- C9 counterexample: on a target whose current value is a single space
(non-empty), clicking the pill sets the value to just the suggestion text —
not to the current value followed by two newlines and the suggestion text —
because the source tests `current.trim().length > 0` and applies
`current.trimEnd()`, refuting the claim as stated for whitespace values. -/
theorem applySuggestion_whitespace_counterexample :
    (c9w2.doc 0).value = " ".data
      ∧ " ".data ≠ ([] : List Char)
      ∧ ((clickPill c9w2 0).doc 0).value = "Clarify dataset source".data
      ∧ "Clarify dataset source".data
          ≠ " ".data ++ "\n\n".data ++ "Clarify dataset source".data :=
  ⟨by decide, by decide, by decide, by decide⟩

/-- C9 (amended): clicking a rendered pill sets the target's value to the
`trimEnd`-ed current value followed by two newlines and the suggestion's
text when the trimmed current value is non-empty, and to exactly the
suggestion's text when the current value is empty or whitespace-only; the
synthetic input event it dispatches runs the installed observer, so the
controller's tracked text equals the new value and the pending ghost is
cleared. -/
theorem clickPill_applies_suggestion (w : World) (i : Nat) (s : RefineSuggestion)
    (id : Nat) (tr : VisualTree)
    (hroot : w.ctrl.root = some tr)
    (hpill : tr.sugg.pills[i]? = some s)
    (hT : w.ctrl.target = some id)
    (hTO : w.ctrl.hasTextObserver = true) :
    ((clickPill w i).doc id).value
        = (if (jsTrim (w.doc id).value).length > 0
            then jsTrimEnd (w.doc id).value ++ "\n\n".data ++ s.reason
            else s.reason)
      ∧ (clickPill w i).ctrl.currentText = ((clickPill w i).doc id).value
      ∧ (clickPill w i).ctrl.ghostCompletion = [] := by
  obtain ⟨⟨root0, tgt0, hTO0, hSH0, hRO0, gc, sug, err, cur, fl⟩, doc0, q0⟩ := w
  simp only at hroot hT hTO
  subst hroot
  subst hT
  subst hTO
  simp [clickPill, hpill, applySuggestion, dispatchInput, observerBody, clearGhost,
    updateGhostLayer, ghostDomNext, updateErrorLayer, errorsDomNext, updateLayout,
    updElem]

/-- C9 witness: the spec's §8 example — clicking the pill on a target whose
value is `"Analyze code"` yields
`"Analyze code\n\nClarify dataset source"` and the observer sees it. -/
theorem clickPill_applies_suggestion_witness :
    (c9aw2.ctrl.root = some { freshTree with sugg := ⟨false, [sugEx]⟩ }
        ∧ ({ freshTree with sugg := ⟨false, [sugEx]⟩ } : VisualTree).sugg.pills[0]?
            = some sugEx
        ∧ c9aw2.ctrl.target = some 0
        ∧ c9aw2.ctrl.hasTextObserver = true)
      ∧ (((clickPill c9aw2 0).doc 0).value
            = (if (jsTrim (c9aw2.doc 0).value).length > 0
                then jsTrimEnd (c9aw2.doc 0).value ++ "\n\n".data ++ sugEx.reason
                else sugEx.reason)
        ∧ (clickPill c9aw2 0).ctrl.currentText = ((clickPill c9aw2 0).doc 0).value
        ∧ (clickPill c9aw2 0).ctrl.ghostCompletion = [])
      ∧ ((clickPill c9aw2 0).doc 0).value
          = "Analyze code\n\nClarify dataset source".data :=
  ⟨⟨by decide, by decide, by decide, by decide⟩,
    clickPill_applies_suggestion c9aw2 0 sugEx 0
      { freshTree with sugg := ⟨false, [sugEx]⟩ }
      (by decide) (by decide) (by decide) (by decide),
    by decide⟩

/-- C10: annotation data supplied while its layer flag (or the overlay flag)
is false is still stored, replacing the previous list; a later `setFlags`
call that enables the overlay, suggestions and errors flags while a target
is attached renders exactly the most recently stored data: the suggestions
layer shows one pill per stored suggestion and the error layer shows the
markup built for the stored errors over the tracked text (empty markup for
an empty list) — without the data being re-sent. -/
theorem annotations_stored_and_rerendered (w : World) (l : List RefineSuggestion)
    (el : List CriticalError) (f : OverlayFeatureFlags) (id : Nat)
    (hT : w.ctrl.target = some id)
    (hov : f.overlayEnabled = true) (hsg : f.suggestionsEnabled = true)
    (hce : f.criticalErrorsEnabled = true) :
    (renderSuggestions w l).ctrl.suggestions = l
      ∧ (renderCriticalErrors w el).ctrl.errors = el
      ∧ ((setFlags (renderCriticalErrors (renderSuggestions w l) el) f).ctrl.root.map
          fun tr => tr.sugg.pills) = some l
      ∧ ((setFlags (renderCriticalErrors (renderSuggestions w l) el) f).ctrl.root.map
          fun tr => tr.errorsL.innerHTML)
          = some (if el.isEmpty then []
              else buildErrorMarkup w.ctrl.currentText el) := by
  obtain ⟨⟨root0, tgt0, hTO0, hSH0, hRO0, gc, sug, err, cur, fl⟩, doc0, q0⟩ := w
  simp only at hT
  subst hT
  obtain ⟨nov, ngh, nsu, nce⟩ := f
  simp only at hov hsg hce
  subst hov
  subst hsg
  subst hce
  cases root0 <;> cases l <;> cases el <;>
    simp [renderSuggestions, renderCriticalErrors, updateSuggestionsLayer, suggDomNext,
      updateErrorLayer, errorsDomNext, updateGhostLayer, ghostDomNext, setFlags,
      ensureRoot, updateLayout, destroy, detach, attachToActiveTextarea, setTarget]

/-- C10 witness: suggestions and errors supplied while their layers are off
on the attached controller, then re-enabled through `setFlags`. -/
theorem annotations_stored_and_rerendered_witness :
    (c10w1.ctrl.target = some 0
        ∧ initFlags.overlayEnabled = true ∧ initFlags.suggestionsEnabled = true
        ∧ initFlags.criticalErrorsEnabled = true)
      ∧ ((renderSuggestions c10w1 [sugEx]).ctrl.suggestions = [sugEx]
        ∧ (renderCriticalErrors c10w1 [errEx]).ctrl.errors = [errEx]
        ∧ ((setFlags (renderCriticalErrors (renderSuggestions c10w1 [sugEx]) [errEx])
              initFlags).ctrl.root.map fun tr => tr.sugg.pills) = some [sugEx]
        ∧ ((setFlags (renderCriticalErrors (renderSuggestions c10w1 [sugEx]) [errEx])
              initFlags).ctrl.root.map fun tr => tr.errorsL.innerHTML)
            = some (if ([errEx] : List CriticalError).isEmpty then []
                else buildErrorMarkup c10w1.ctrl.currentText [errEx])) :=
  ⟨⟨by decide, by decide, by decide, by decide⟩,
    annotations_stored_and_rerendered c10w1 [sugEx] [errEx] initFlags 0
      (by decide) (by decide) (by decide) (by decide)⟩

end Refine
